import Mathlib

/-!
# Verification of the conformal-action review pipeline

Shallow embedding of the core of the `conformal-action` repository:

* `parsePatchLines` / `parseChangedLines` (diff line index, `src/diff.ts`),
* `classifySeverity` / `analyzeFile` (diagnostic classifier, `src/analyzer.ts`),
* `postReview` (review batcher, `src/review.ts`).

JavaScript strings are modelled as Lean `String`; `String.prototype.split`,
`startsWith` and the hunk-header regular expression are implemented explicitly
over `List Char` so that everything evaluates by kernel reduction.  JavaScript
`Set<number>` is modelled as a duplicate-free insertion-ordered `List Nat`
(`Set.add` appends only when absent) and `Map<string, _>` as an association
list whose `set` overwrites an existing key in place.  JavaScript truthiness
of strings (`""` is falsy) and of `undefined` is made explicit at the two
places the source relies on it (`if (!file.patch)`, `if (result.parseError)`).
-/

namespace Conformal

/-! ## String primitives (JavaScript semantics) -/

/-- Model of `String.prototype.split('\n')`: splits on every newline, keeping empty
segments; the empty string yields `[""]`. -/
def splitLinesAux : List Char → List Char → List String
  | [], acc => [String.mk acc.reverse]
  | c :: cs, acc =>
    if c = '\n' then String.mk acc.reverse :: splitLinesAux cs []
    else splitLinesAux cs (c :: acc)

def splitLines (s : String) : List String :=
  splitLinesAux s.data []

/-- Model of `String.prototype.startsWith(c)` for a one-character argument. -/
def startsWithChar (s : String) (c : Char) : Bool :=
  match s.data with
  | [] => false
  | c' :: _ => c' = c

def listPfx : List Char → List Char → Bool
  | [], _ => true
  | _ :: _, [] => false
  | a :: as, b :: bs => a = b && listPfx as bs

/-- Model of `String.prototype.startsWith(p)` for a string argument. -/
def strStartsWith (s p : String) : Bool :=
  listPfx p.data s.data

/-- Model of `parseInt` on a non-empty digit string (the regex guarantees digits). -/
def digitsVal (ds : List Char) : Nat :=
  ds.foldl (fun a c => 10 * a + (c.toNat - 48)) 0

/-- Skip an optional `,\d+` group: if the input starts with `','` it must be
followed by at least one digit (else the whole match fails, exactly as the
regex does since a `','` can never match the following literal `' '`). -/
def skipCommaDigits : List Char → Option (List Char)
  | ',' :: r =>
    if (r.takeWhile Char.isDigit).isEmpty then none
    else some (r.dropWhile Char.isDigit)
  | r => some r

/-- The hunk-header regex `^@@ -\d+(?:,\d+)? \+(\d+)(?:,\d+)? @@` of
`parsePatchLines`: returns the captured new-side start line when the line
matches, `none` otherwise.  Trailing content after the closing ` @@` is
allowed (the regex is not anchored on the right). -/
def hunkNewStart (s : String) : Option Nat :=
  match s.data with
  | '@' :: '@' :: ' ' :: '-' :: r =>
    if (r.takeWhile Char.isDigit).isEmpty then none
    else
      match skipCommaDigits (r.dropWhile Char.isDigit) with
      | none => none
      | some r2 =>
        match r2 with
        | ' ' :: '+' :: r3 =>
          let ds2 := r3.takeWhile Char.isDigit
          if ds2.isEmpty then none
          else
            match skipCommaDigits (r3.dropWhile Char.isDigit) with
            | none => none
            | some r4 =>
              match r4 with
              | ' ' :: '@' :: '@' :: _ => some (digitsVal ds2)
              | _ => none
        | _ => none
  | _ => none

/-! ## Diff line index (`src/diff.ts`) -/

/-- Model of `Set<number>.add`: appends when absent (JavaScript sets deduplicate and
preserve insertion order). -/
def setAdd (l : List Nat) (n : Nat) : List Nat :=
  if n ∈ l then l else l ++ [n]

/-- One iteration of the `for (const raw of patchLines)` loop of
`parsePatchLines`: state is `(lines, currentLine)`. -/
def parseStep : List Nat × Nat → String → List Nat × Nat
  | (lines, cur), raw =>
    match hunkNewStart raw with
    | some ns => (lines, ns)
    | none =>
      if startsWithChar raw '+' then (setAdd lines cur, cur + 1)
      else if startsWithChar raw '-' then (lines, cur)
      else (lines, cur + 1)

def parsePatchLinesList (ls : List String) : List Nat :=
  (ls.foldl parseStep ([], 0)).1

/-- Translation of `parsePatchLines(patch)`: the set of new-side line numbers added by the
patch, with the cursor initialised to `0`. -/
def parsePatchLines (patch : String) : List Nat :=
  parsePatchLinesList (splitLines patch)

/-- Structure `PullFile` from `src/diff.ts` (`previous_filename` is never read). -/
structure PullFile where
  filename : String
  status : String
  patch : Option String
deriving DecidableEq

/-- Model of `Map<string, Set<number>>.set`: overwrite in place or append. -/
def mapSet (m : List (String × List Nat)) (k : String) (v : List Nat) :
    List (String × List Nat) :=
  match m with
  | [] => [(k, v)]
  | (k', v') :: rest => if k' = k then (k, v) :: rest else (k', v') :: mapSet rest k v

/-- Model of `Map.get`, returning `none` for an absent key. -/
def mapGet (m : List (String × List Nat)) (k : String) : Option (List Nat) :=
  match m with
  | [] => none
  | (k', v') :: rest => if k' = k then some v' else mapGet rest k

/-- One iteration of the loop of `parseChangedLines`.  Note the JavaScript
truthiness test `if (!file.patch) continue`: both an absent patch and an
empty-string patch are skipped. -/
def changedStep (m : List (String × List Nat)) (f : PullFile) :
    List (String × List Nat) :=
  if f.status = "removed" then m
  else
    match f.patch with
    | none => m
    | some p => if p = "" then m else mapSet m f.filename (parsePatchLines p)

/-- Translation of `parseChangedLines(files)`. -/
def parseChangedLines (files : List PullFile) : List (String × List Nat) :=
  files.foldl changedStep []

/-! ## Diagnostic classifier (`src/analyzer.ts`) -/

inductive Severity where
  | error
  | warning
  | hint
deriving DecidableEq

/-- Structure `ReviewComment` from `src/types.ts`, as used throughout the core. -/
structure ReviewComment where
  path : String
  line : Nat
  code : String
  body : String
  severity : Severity
deriving DecidableEq

/-- Error-severity codes (the `ERROR_CODES` set). -/
def ERROR_CODES : List String :=
  ["W_INNER_DIM_MISMATCH",
   "W_ELEMENTWISE_MISMATCH",
   "W_CONSTRAINT_CONFLICT",
   "W_HORZCAT_ROW_MISMATCH",
   "W_VERTCAT_COL_MISMATCH",
   "W_RESHAPE_MISMATCH",
   "W_INDEX_OUT_OF_BOUNDS",
   "W_DIVISION_BY_ZERO",
   "W_ARITHMETIC_TYPE_MISMATCH",
   "W_TRANSPOSE_TYPE_MISMATCH",
   "W_NEGATE_TYPE_MISMATCH",
   "W_CONCAT_TYPE_MISMATCH",
   "W_INDEX_ASSIGN_TYPE_MISMATCH",
   "W_POSSIBLY_NEGATIVE_DIM",
   "W_FUNCTION_ARG_COUNT_MISMATCH",
   "W_LAMBDA_ARG_COUNT_MISMATCH",
   "W_MULTI_ASSIGN_COUNT_MISMATCH",
   "W_MULTI_ASSIGN_NON_CALL",
   "W_MULTI_ASSIGN_BUILTIN",
   "W_PROCEDURE_IN_EXPR",
   "W_BREAK_OUTSIDE_LOOP",
   "W_CONTINUE_OUTSIDE_LOOP",
   "W_STRICT_MODE",
   "W_MLDIVIDE_DIM_MISMATCH",
   "W_MATRIX_POWER_NON_SQUARE"]

/-- Strict-only codes, suppressed in default mode (the `STRICT_ONLY_CODES`
set). -/
def STRICT_ONLY_CODES : List String :=
  ["W_UNKNOWN_FUNCTION",
   "W_RECURSIVE_FUNCTION",
   "W_RECURSIVE_LAMBDA",
   "W_UNSUPPORTED_BUILTIN",
   "W_UNSUPPORTED_SYNTAX",
   "W_UNSUPPORTED_INDEX_TYPE",
   "W_UNSUPPORTED_FIELD_BASE",
   "W_UNSUPPORTED_HANDLE_TARGET",
   "W_UNSUPPORTED_SWITCH_EXPR",
   "W_END_OUTSIDE_INDEXING",
   "W_EXTERNAL_PARSE_ERROR",
   "W_STRUCT_FIELD_NOT_FOUND",
   "W_CELL_TYPE_MISMATCH",
   "W_INDEX_INTO_NON_MATRIX",
   "W_NON_MATRIX_MULTIPLICATION",
   "W_SUBSCRIPT_ON_NON_INDEXABLE",
   "W_FIELD_ACCESS_ON_NON_STRUCT",
   "W_UNKNOWN_SIZE_FUNCTION",
   "W_GLOBAL_NOT_SUPPORTED"]

/-- Translation of `classifySeverity(code)`. -/
def classifySeverity (code : String) : Severity :=
  if code ∈ ERROR_CODES then .error
  else if strStartsWith code "W_UNSUPPORTED_" then .hint
  else .warning

/-- The classifier contract `classify(code, strictMode) → visible? severity`:
the combination, taken verbatim from the diagnostic loop of `analyzeFile`, of
the suppression test `if (!options.strict && STRICT_ONLY_CODES.has(d.code))
continue` with `severity: classifySeverity(d.code)`.  `none` means the
diagnostic is invisible (suppressed). -/
def classify (code : String) (strictMode : Bool) : Option Severity :=
  if strictMode = false ∧ code ∈ STRICT_ONLY_CODES then none
  else some (classifySeverity code)

/-- A diagnostic as produced by the external engine (only the fields read by
`analyzeFile`). -/
structure Diag where
  line : Nat
  code : String
  message : String
deriving DecidableEq

/-- Structure `AnalysisResult` from the external engine. -/
structure AnalysisResult where
  parseError : Option String
  diagnostics : List Diag
deriving DecidableEq

/-- The outcome of the call `interop.analyzeSource(...)`: either a thrown
exception (`crash`, caught by the `try`/`catch` of `analyzeFile`) or a
returned `AnalysisResult`.  The engine itself is an external collaborator, so
its outcome is an input of the embedding. -/
inductive EngineOutcome where
  | crash
  | ok (res : AnalysisResult)
deriving DecidableEq

/-- The diagnostic loop of `analyzeFile` (its `continue` is the filter). -/
def collectDiags (filePath : String) (strict : Bool) (ds : List Diag) :
    List ReviewComment :=
  (ds.filter fun d => strict || !(d.code ∈ STRICT_ONLY_CODES : Bool)).map
    fun d =>
      { path := filePath, line := d.line, code := d.code, body := d.message,
        severity := classifySeverity d.code }

/-- Translation of `analyzeFile(filePath, content, siblings, options)`.  The call into the
engine is abstracted by the `outcome` argument (which is what
`content`/`siblings`/`options.fixpoint` feed into); `strict` is
`options.strict`.  The JavaScript truthiness test `if (result.parseError)`
means an empty-string parse error does not take the parse-error branch.  The
function is total: neither a crash nor a parse error propagates out. -/
def analyzeFile (filePath : String) (outcome : EngineOutcome) (strict : Bool) :
    List ReviewComment :=
  match outcome with
  | .crash =>
    [{ path := filePath, line := 1, code := "W_INTERNAL_ERROR",
       body := "Conformal: internal analysis error on this file.",
       severity := .warning }]
  | .ok res =>
    match res.parseError with
    | some msg =>
      if msg = "" then collectDiags filePath strict res.diagnostics
      else
        [{ path := filePath, line := 1, code := "W_PARSE_ERROR",
           body := "Conformal: syntax error: " ++ msg,
           severity := .error }]
    | none => collectDiags filePath strict res.diagnostics

/-! ## Review batcher (`src/review.ts`) -/

/-- Test `changedLines.get(c.path)` followed by `fileLines && fileLines.has(c.line)`
(an absent key is falsy). -/
def onDiff (idx : List (String × List Nat)) (c : ReviewComment) : Bool :=
  match mapGet idx c.path with
  | some fileLines => c.line ∈ fileLines
  | none => false

/-- Translation of `formatCommentBody(c)`. -/
def formatCommentBody (c : ReviewComment) : String :=
  (match c.severity with
   | .error => ":x:"
   | .warning => ":warning:"
   | .hint => ":information_source:") ++
  " **Conformal** `" ++ c.code ++ "`\n\n" ++ c.body

/-- The `inline` partition of `postReview` (comments on diff lines, in input
order). -/
def inlineFor (comments : List ReviewComment) (idx : List (String × List Nat)) :
    List ReviewComment :=
  comments.filter (onDiff idx)

/-- The `outOfDiff` partition of `postReview`. -/
def outOfDiffFor (comments : List ReviewComment) (idx : List (String × List Nat)) :
    List ReviewComment :=
  comments.filter fun c => !onDiff idx c

/-- Cap `inline.slice(0, 50)` — the GitHub soft limit. -/
def inlineToPost (comments : List ReviewComment) (idx : List (String × List Nat)) :
    List ReviewComment :=
  (inlineFor comments idx).take 50

/-- Count `overflow = inline.length - inlineToPost.length` (a non-negative number,
so truncated `Nat` subtraction coincides with JavaScript). -/
def overflowOf (comments : List ReviewComment) (idx : List (String × List Nat)) :
    Nat :=
  (inlineFor comments idx).length - (inlineToPost comments idx).length

/-- Model of `Array.prototype.join(sep)`. -/
def joinSep (sep : String) : List String → String
  | [] => ""
  | [x] => x
  | x :: y :: ys => x ++ sep ++ joinSep sep (y :: ys)

/-- The overflow body line. -/
def overflowLine (n : Nat) : String :=
  "... and " ++ Nat.repr n ++ " more warnings not shown inline."

/-- The collapsible out-of-diff summary block pushed into `bodyParts`. -/
def detailsBlock (outOfDiffToShow : List ReviewComment) : String :=
  "<details><summary>" ++ Nat.repr outOfDiffToShow.length ++
  " warnings on unchanged lines</summary>\n\n" ++
  joinSep "\n" ((outOfDiffToShow.take 20).map fun c =>
    "- `" ++ c.path ++ ":" ++ Nat.repr c.line ++ "`: " ++ c.body) ++
  (if 20 < outOfDiffToShow.length then
    "\n- ... and " ++ Nat.repr (outOfDiffToShow.length - 20) ++ " more"
   else "") ++
  "\n</details>"

/-- The `bodyParts` array of `postReview`: the overflow line when overflow is
positive, then (via `outOfDiffToShow = filterToDiff ? outOfDiff : []`) the
collapsible summary when it is non-empty. -/
def bodyParts (comments : List ReviewComment) (idx : List (String × List Nat))
    (filterToDiff : Bool) : List String :=
  (if 0 < overflowOf comments idx then [overflowLine (overflowOf comments idx)]
   else []) ++
  (let outOfDiffToShow := if filterToDiff then outOfDiffFor comments idx else []
   if 0 < outOfDiffToShow.length then [detailsBlock outOfDiffToShow] else [])

/-- The `allInline` list of `postReview`: in non-filtering mode the
out-of-diff comments are re-filtered against the index before being appended
and the concatenation is capped again at 50. -/
def allInline (comments : List ReviewComment) (idx : List (String × List Nat))
    (filterToDiff : Bool) : List ReviewComment :=
  if filterToDiff then inlineToPost comments idx
  else
    (inlineToPost comments idx ++
      (outOfDiffFor comments idx).filter (onDiff idx)).take 50

/-- One inline entry of the `pulls.createReview` payload. -/
structure InlinePayload where
  path : String
  line : Nat
  side : String
  body : String
deriving DecidableEq

def mkPayload (c : ReviewComment) : InlinePayload :=
  { path := c.path, line := c.line, side := "RIGHT", body := formatCommentBody c }

/-- The review submission handed to `pulls.createReview`. -/
structure ReviewSubmission where
  body : Option String
  comments : List InlinePayload
deriving DecidableEq

/-- Translation of `postReview` as a pure function: `none` models the early `return` that
skips the `pulls.createReview` call, `some` models the payload of that call.
`body = bodyParts.join('\n\n') || undefined` maps the empty join to `none`. -/
def postReview (comments : List ReviewComment) (idx : List (String × List Nat))
    (filterToDiff : Bool) : Option ReviewSubmission :=
  let ai := allInline comments idx filterToDiff
  let bp := bodyParts comments idx filterToDiff
  if ai.length = 0 ∧ bp.length = 0 then none
  else
    some { body := if joinSep "\n\n" bp = "" then none else some (joinSep "\n\n" bp),
           comments := ai.map mkPayload }

/-! ## Auxiliary predicates used by the statements -/

/-- Well-led patch lines: every hunk header carries a positive new-side start
and no `+` line occurs before the first hunk header.  Under this guard the
cursor of `parsePatchLines` is positive whenever a line is recorded. -/
def goodLines : Bool → List String → Bool
  | _, [] => true
  | seen, l :: ls =>
    match hunkNewStart l with
    | some ns => decide (1 ≤ ns) && goodLines true ls
    | none =>
      if startsWithChar l '+' then seen && goodLines seen ls
      else goodLines seen ls

/-- The files `parseChangedLines` actually indexes: not `removed`, and with a
truthy (present, non-empty) patch. -/
def keepFile (f : PullFile) : Bool :=
  if f.status = "removed" then false
  else
    match f.patch with
    | none => false
    | some p => if p = "" then false else true

/-- The classifier written following the spec's decision order (steps 1–4 of
§4.2), to be compared with `classify` as translated from the source. -/
def classifySpecOrder (code : String) (strict : Bool) : Option Severity :=
  if code ∈ STRICT_ONLY_CODES ∧ strict = false then none
  else if code ∈ ERROR_CODES then some .error
  else if strStartsWith code "W_UNSUPPORTED_" then some .hint
  else some .warning

/-- Sixty inline-eligible comments on lines 1–60 of one file. -/
def comments60 : List ReviewComment :=
  (List.range 60).map fun n =>
    { path := "f.m", line := n + 1, code := "W_X", body := "msg",
      severity := .warning }

/-- A line index covering lines 1–60 of that file. -/
def idx60 : List (String × List Nat) :=
  [("f.m", (List.range 60).map fun n => n + 1)]

/-- A comment whose path is not in the (empty) index. -/
def cOut : ReviewComment :=
  { path := "g.m", line := 3, code := "W_X", body := "m", severity := .warning }

/-- A diagnostic used to exercise the parse-error branch. -/
def dProbe : Diag := { line := 3, code := "W_X", message := "m" }

/-! ## Helper lemmas -/

theorem filter_not_filter {α : Type _} (p : α → Bool) (l : List α) :
    (l.filter fun a => !p a).filter p = [] := by
  induction l with
  | nil => rfl
  | cons a l ih =>
    by_cases h : p a = true <;> simp [List.filter_cons, h, ih]

theorem allInline_eq (comments : List ReviewComment)
    (idx : List (String × List Nat)) (ftd : Bool) :
    allInline comments idx ftd = inlineToPost comments idx := by
  cases ftd
  · simp only [allInline, Bool.false_eq_true, if_false, outOfDiffFor,
      filter_not_filter, List.append_nil, inlineToPost, List.take_take,
      min_self]
  · rfl

theorem parseStep_foldl_pos :
    ∀ (ls : List String) (seen : Bool) (lines : List Nat) (cur : Nat),
      goodLines seen ls = true →
      (seen = true → 1 ≤ cur) →
      (∀ n ∈ lines, 1 ≤ n) →
      ∀ n ∈ (ls.foldl parseStep (lines, cur)).1, 1 ≤ n := by
  intro ls
  induction ls with
  | nil => intro seen lines cur _ _ hlines n hn; exact hlines n hn
  | cons l ls ih =>
    intro seen lines cur hgood hcur hlines n hn
    simp only [List.foldl_cons] at hn
    cases hh : hunkNewStart l with
    | some ns =>
      simp only [goodLines, hh, Bool.and_eq_true, decide_eq_true_eq] at hgood
      simp only [parseStep, hh] at hn
      exact ih true lines ns hgood.2 (fun _ => hgood.1) hlines n hn
    | none =>
      simp only [goodLines, hh] at hgood
      simp only [parseStep, hh] at hn
      by_cases hp : startsWithChar l '+' = true
      · simp only [hp, if_true, Bool.and_eq_true] at hgood hn
        have hseen : seen = true := hgood.1
        have hcur1 : 1 ≤ cur := hcur hseen
        refine ih seen (setAdd lines cur) (cur + 1) hgood.2
          (fun _ => Nat.le_succ_of_le hcur1) ?_ n hn
        intro m hm
        unfold setAdd at hm
        by_cases hmem : cur ∈ lines
        · rw [if_pos hmem] at hm; exact hlines m hm
        · rw [if_neg hmem] at hm
          rcases List.mem_append.mp hm with h | h
          · exact hlines m h
          · rw [List.mem_singleton.mp h]; exact hcur1
      · simp only [hp, if_false] at hgood hn
        by_cases hm : startsWithChar l '-' = true
        · simp only [hm, if_true] at hn
          exact ih seen lines cur hgood hcur hlines n hn
        · simp only [hm, if_false] at hn
          exact ih seen lines (cur + 1) hgood
            (fun _ => Nat.succ_le_succ (Nat.zero_le cur)) hlines n hn

theorem lookup_mapSet (m : List (String × List Nat)) (k p : String)
    (v : List Nat) :
    (mapGet (mapSet m k v) p).isSome = true ↔
      (mapGet m p).isSome = true ∨ k = p := by
  induction m with
  | nil =>
    by_cases h : k = p <;> simp [mapSet, mapGet, h]
  | cons kv m ih =>
    obtain ⟨k', v'⟩ := kv
    by_cases h : k' = k
    · subst h
      by_cases h2 : k' = p <;> simp [mapSet, mapGet, h2]
    · by_cases h2 : k' = p
      · subst h2
        simp [mapSet, mapGet, h]
      · simp [mapSet, mapGet, h, h2, ih]

theorem changedStep_not_keep (m : List (String × List Nat)) (f : PullFile)
    (h : keepFile f = false) : changedStep m f = m := by
  obtain ⟨name, status, patch⟩ := f
  by_cases h1 : status = "removed"
  · simp [changedStep, h1]
  · cases patch with
    | none => simp [changedStep, h1]
    | some p =>
      by_cases h2 : p = ""
      · simp [changedStep, h1, h2]
      · exfalso
        simp [keepFile, h1, h2] at h

theorem foldl_changed_filter (files : List PullFile) :
    ∀ m, (files.filter keepFile).foldl changedStep m = files.foldl changedStep m := by
  induction files with
  | nil => intro m; rfl
  | cons f fs ih =>
    intro m
    by_cases h : keepFile f = true
    · simp only [List.filter_cons, h, if_true, List.foldl_cons, ih]
    · have h' : keepFile f = false := by simpa using h
      simp only [List.filter_cons, h', Bool.false_eq_true, if_false,
        List.foldl_cons, ih, changedStep_not_keep m f h']

theorem lookup_changedStep (m : List (String × List Nat)) (f : PullFile)
    (p : String) :
    (mapGet (changedStep m f) p).isSome = true ↔
      (mapGet m p).isSome = true ∨ (keepFile f = true ∧ f.filename = p) := by
  by_cases h : keepFile f = true
  · obtain ⟨name, status, patch⟩ := f
    by_cases h1 : status = "removed"
    · exfalso; simp [keepFile, h1] at h
    · cases patch with
      | none => exfalso; simp [keepFile, h1] at h
      | some q =>
        by_cases h2 : q = ""
        · exfalso; simp [keepFile, h1, h2] at h
        · rw [show changedStep m ⟨name, status, some q⟩
              = mapSet m name (parsePatchLines q) from by simp [changedStep, h1, h2]]
          rw [lookup_mapSet]
          constructor
          · rintro (hl | he)
            · exact Or.inl hl
            · exact Or.inr ⟨h, he⟩
          · rintro (hl | ⟨_, he⟩)
            · exact Or.inl hl
            · exact Or.inr he
  · rw [changedStep_not_keep m f (by simpa using h)]
    simp [h]

theorem lookup_foldl_changed (files : List PullFile) :
    ∀ (m : List (String × List Nat)) (p : String),
      (mapGet (files.foldl changedStep m) p).isSome = true ↔
        (mapGet m p).isSome = true ∨
          ∃ f, f ∈ files ∧ keepFile f = true ∧ f.filename = p := by
  induction files with
  | nil => intro m p; simp
  | cons f fs ih =>
    intro m p
    simp only [List.foldl_cons]
    rw [ih, lookup_changedStep]
    constructor
    · rintro ((hl | ⟨hk, hn⟩) | ⟨g, hg, hkg, hng⟩)
      · exact Or.inl hl
      · exact Or.inr ⟨f, List.mem_cons_self f fs, hk, hn⟩
      · exact Or.inr ⟨g, List.mem_cons_of_mem f hg, hkg, hng⟩
    · rintro (hl | ⟨g, hg, hkg, hng⟩)
      · exact Or.inl (Or.inl hl)
      · rcases List.mem_cons.mp hg with rfl | hg'
        · exact Or.inl (Or.inr ⟨hkg, hng⟩)
        · exact Or.inr ⟨g, hg', hkg, hng⟩

/-! ## The claims -/

/-- C1 (corrected), counterexample: the claim "no lines are recorded until a
header is seen" and "every recorded line number is positive" both fail on a
malformed patch whose first content line begins with `+`: `parsePatchLines`
executes `lines.add(0)` with the cursor still at its initial value `0`, so
the patch `"+added"` yields the index `{0}` — a recorded, non-positive line
number, recorded before any hunk header. -/
theorem claim_C1_counterexample :
    parsePatchLines "+added" = [0] ∧
    ((parsePatchLines "+added").all fun n => decide (1 ≤ n)) = false := by
  exact ⟨by decide, by decide⟩

/-- C1 (corrected, amended): if every hunk header of the patch has a positive
new-side start and no `+` line precedes the first hunk header (`goodLines`),
then every line number recorded in the diff line index is positive.  Context
and removed lines before a header indeed record nothing (only `+` lines
record), but a `+` line before any header records the degenerate cursor value
`0` rather than nothing. -/
theorem claim_C1_amended (patch : String)
    (h : goodLines false (splitLines patch) = true) :
    ((parsePatchLines patch).all fun n => decide (1 ≤ n)) = true := by
  rw [List.all_eq_true]
  intro n hn
  exact decide_eq_true
    (parseStep_foldl_pos (splitLines patch) false [] 0 h
      (fun hf => absurd hf (by simp)) (by simp) n hn)

/-- Witness for C1: a well-formed one-hunk patch satisfies the guard and its
recorded lines are all positive. -/
theorem claim_C1_witness :
    goodLines false (splitLines "@@ -1 +5 @@\n+x\n ctx") = true ∧
    ((parsePatchLines "@@ -1 +5 @@\n+x\n ctx").all fun n => decide (1 ≤ n)) = true :=
  ⟨by decide, claim_C1_amended "@@ -1 +5 @@\n+x\n ctx" (by decide)⟩

/-- C2 (confirmed): in both policy modes the final inline list `allInline` is
exactly the capped inline-eligible list (the first at-most-50 comments whose
path and line appear in the index); it never exceeds 50 entries; it is
identical for `filterToDiff = true` and `filterToDiff = false` (the re-filter
of `outOfDiff` against the index in the `false` branch contributes nothing);
and the inline comment list of the emitted submission is exactly that capped
list, rendered. -/
theorem claim_C2 (comments : List ReviewComment)
    (idx : List (String × List Nat)) (ftd : Bool) :
    allInline comments idx ftd = (inlineFor comments idx).take 50 ∧
    (allInline comments idx ftd).length ≤ 50 ∧
    allInline comments idx true = allInline comments idx false ∧
    (postReview comments idx ftd).map ReviewSubmission.comments
      = (postReview comments idx ftd).map
          fun _ => ((inlineFor comments idx).take 50).map mkPayload := by
  have h1 : allInline comments idx ftd = (inlineFor comments idx).take 50 :=
    allInline_eq comments idx ftd
  refine ⟨h1, ?_, ?_, ?_⟩
  · rw [h1, List.length_take]
    exact min_le_left _ _
  · rw [allInline_eq, allInline_eq]
  · simp only [postReview]
    split
    · rfl
    · simp only [Option.map_some']
      rw [h1]

/-- C4 (confirmed): `postReview` skips the `pulls.createReview` call iff the
final inline list is empty and no body part was composed; in particular an
empty comment list produces no submission. -/
theorem claim_C4 (comments : List ReviewComment)
    (idx : List (String × List Nat)) (ftd : Bool) :
    (postReview comments idx ftd = none ↔
      allInline comments idx ftd = [] ∧ bodyParts comments idx ftd = []) ∧
    postReview [] idx ftd = none := by
  constructor
  · simp only [postReview]
    split <;> simp_all [List.length_eq_zero]
  · cases ftd <;> rfl

/-- C6 (confirmed): for 60 inline-eligible comments with `filterToDiff =
true`, the emitted submission has exactly 50 inline comments and its body is
the single line reporting the 10 overflowed warnings. -/
theorem claim_C6 :
    (postReview comments60 idx60 true).map (fun s => (s.comments.length, s.body))
      = some (50, some "... and 10 more warnings not shown inline.") := by
  decide

/-- C7 (confirmed): the example patch records exactly line 2 — the header
sets the cursor to 1, the first context line advances it to 2, the added line
records 2 and advances to 3, and the final context line records nothing. -/
theorem claim_C7 :
    parsePatchLines "@@ -1,2 +1,3 @@\n context\n+added\n context" = [2] := by
  decide

/-- C8 (confirmed): when `filterToDiff` is false the body consists of the
overflow line alone when there is overflow and is empty otherwise (no
out-of-diff summary is ever appended), and no out-of-diff comment appears in
the final inline list: such comments are dropped without surfacing. -/
theorem claim_C8 (comments : List ReviewComment)
    (idx : List (String × List Nat)) :
    bodyParts comments idx false
      = (if 0 < overflowOf comments idx
         then [overflowLine (overflowOf comments idx)] else []) ∧
    ∀ c, c ∈ outOfDiffFor comments idx → c ∉ allInline comments idx false := by
  constructor
  · simp [bodyParts]
  · intro c hout hin
    rw [allInline_eq] at hin
    have hmem := List.take_subset 50 _ hin
    have h1 : onDiff idx c = true := (List.mem_filter.mp hmem).2
    have h2 : (!onDiff idx c) = true := (List.mem_filter.mp hout).2
    rw [h1] at h2
    exact absurd h2 (by simp)

/-- Witness for C8: a comment off the (empty) index is not in the final
inline list in non-filtering mode. -/
theorem claim_C8_witness : cOut ∉ allInline [cOut] [] false :=
  (claim_C8 [cOut] []).2 cOut (by decide)

/-- C9 (confirmed): files with status `removed` or without a (truthy) patch
contribute nothing to `parseChangedLines` — the result equals the result on
the kept files alone, and a path is a key of the map iff some kept file
carries it, so skipped files leave the path absent rather than mapped to an
empty set. -/
theorem claim_C9 (files : List PullFile) :
    parseChangedLines files = parseChangedLines (files.filter keepFile) ∧
    ∀ p, (mapGet (parseChangedLines files) p).isSome = true ↔
      ∃ f, f ∈ files ∧ keepFile f = true ∧ f.filename = p := by
  constructor
  · exact (foldl_changed_filter files []).symm
  · intro p
    rw [parseChangedLines, lookup_foldl_changed files [] p]
    simp [mapGet]

/-- C3 (confirmed): the classifier decides in the spec's order — strict-only
codes with `strictMode = false` are invisible; otherwise the error set, then
the `W_UNSUPPORTED_` prefix, then the `warning` default.  In particular
`W_INDEX_OUT_OF_BOUNDS` is an error, `W_UNSUPPORTED_SYNTAX` is a hint under
strict mode and invisible otherwise, and any code outside both sets without
the prefix is a visible warning.  `classify` is a total function, so
classification never fails. -/
theorem claim_C3 (code : String) (strict : Bool) :
    classify code strict = classifySpecOrder code strict ∧
    classify "W_INDEX_OUT_OF_BOUNDS" strict = some .error ∧
    classify "W_UNSUPPORTED_SYNTAX" true = some .hint ∧
    classify "W_UNSUPPORTED_SYNTAX" false = none ∧
    (code ∉ ERROR_CODES → code ∉ STRICT_ONLY_CODES →
      strStartsWith code "W_UNSUPPORTED_" = false →
      classify code strict = some .warning) := by
  refine ⟨?_, ?_, by decide, by decide, ?_⟩
  · cases strict <;>
      by_cases h1 : code ∈ STRICT_ONLY_CODES <;>
      by_cases h2 : code ∈ ERROR_CODES <;>
      by_cases h3 : strStartsWith code "W_UNSUPPORTED_" = true <;>
      simp_all [classify, classifySpecOrder, classifySeverity]
  · cases strict <;> decide
  · intro h1 h2 h3
    cases strict <;> simp_all [classify, classifySeverity]

/-- Witness for C3: a code in neither set and without the prefix classifies
as a visible warning. -/
theorem claim_C3_witness : classify "W_CUSTOM_NOTE" true = some Severity.warning :=
  (claim_C3 "W_CUSTOM_NOTE" true).2.2.2.2 (by decide) (by decide) (by decide)

/-- C10 (confirmed): for a code outside the strict-only set, classification
does not depend on `strictMode` at all — for every mode the comment is
visible and its severity is `classifySeverity code`, computed from the code
string alone. -/
theorem claim_C10 (code : String) (h : code ∉ STRICT_ONLY_CODES)
    (strict : Bool) : classify code strict = some (classifySeverity code) := by
  cases strict <;> simp [classify, h]

/-- Witness for C10: a non-strict-only code is visible in default mode with
its code-derived severity. -/
theorem claim_C10_witness :
    classify "W_INNER_DIM_MISMATCH" false
      = some (classifySeverity "W_INNER_DIM_MISMATCH") :=
  claim_C10 "W_INNER_DIM_MISMATCH" (by decide) false

/-- C5 (confirmed): an engine crash produces exactly one synthetic
warning-severity comment at line 1, and a (truthy) engine-reported parse
error produces exactly one synthetic error-severity comment at line 1; in
both cases `analyzeFile` returns normally, so the failure never propagates. -/
theorem claim_C5 (path : String) (strict : Bool) (ds : List Diag)
    (msg : String) :
    analyzeFile path .crash strict
      = [{ path := path, line := 1, code := "W_INTERNAL_ERROR",
           body := "Conformal: internal analysis error on this file.",
           severity := .warning }] ∧
    (msg ≠ "" → analyzeFile path (.ok ⟨some msg, ds⟩) strict
      = [{ path := path, line := 1, code := "W_PARSE_ERROR",
           body := "Conformal: syntax error: " ++ msg,
           severity := .error }]) := by
  refine ⟨rfl, fun h => ?_⟩
  simp [analyzeFile, h]

/-- Witness for C5: a concrete parse error is surfaced as the single
synthetic error comment. -/
theorem claim_C5_witness :
    analyzeFile "a.m" (.ok ⟨some "bad token", [dProbe]⟩) true
      = [{ path := "a.m", line := 1, code := "W_PARSE_ERROR",
           body := "Conformal: syntax error: " ++ "bad token",
           severity := .error }] :=
  (claim_C5 "a.m" true [dProbe] "bad token").2 (by decide)

end Conformal
